import Mathlib

/-!
Verification of the jest-jasmine2 adapter core
(`src/packages/jest-jasmine2/src/index.js`): the iterable custom-equality
extension, the call-introspection matchers (`toBeCalled`, `lastCalledWith`,
`toBeCalledWith`) with their diagnostic renderer `getActualCalls`, the
patched `buildExpectationResult`, and the end-of-run result aggregation.
-/

namespace Jasmine2

/-- A JavaScript value, as far as the assertion machinery inspects it:
primitives (`undef`, `null`, `bool`, `num`, `str`), arrays, plain
(non-iterable) objects as ordered field lists, and iterable objects
(`Map`, `Set`, custom iterables) carrying their constructor name and the
forward sequence of elements their iterator yields. -/
inductive JSVal where
  | undef : JSVal
  | null : JSVal
  | bool : Bool → JSVal
  | num : Int → JSVal
  | str : String → JSVal
  | arr : List JSVal → JSVal
  | obj : List (String × JSVal) → JSVal
  | iter : String → List JSVal → JSVal
deriving Repr

/-- `typeof x === 'object'` in JavaScript: true for `null`, arrays, plain
objects and iterable objects; false for `undefined`, booleans, numbers and
strings. -/
def typeofObject : JSVal → Bool
  | .null => true
  | .arr _ => true
  | .obj _ => true
  | .iter _ _ => true
  | _ => false

/-- `Array.isArray(x)`. -/
def isArray : JSVal → Bool
  | .arr _ => true
  | _ => false

/-- Source: `const hasIterator = object => !!(object != null && object[Symbol.iterator])`.
`undefined` and `null` fail the loose null test; arrays, strings and
iterable objects expose `Symbol.iterator`; the other values do not. -/
def hasIterator : JSVal → Bool
  | .arr _ => true
  | .str _ => true
  | .iter _ _ => true
  | _ => false

/-- JavaScript truthiness: `undefined`, `null`, `false`, `0` and `""` are
falsy, everything else (all objects) is truthy. -/
def truthy : JSVal → Bool
  | .undef => false
  | .null => false
  | .bool b => b
  | .num n => n != 0
  | .str s => s != ""
  | _ => true

mutual

/-- Source `iterableEquality` (lines 119-152): defers (`undefined`, here
`none`) unless both values are of object type, neither is an array, and both
have an iterator; decides `false` on a constructor mismatch; otherwise walks
the two element sequences in lockstep with the host equality extended with
`iterableEquality` itself.  The guard leaves only `iter` values, so the
final catch-all arm of the match is unreachable. -/
def iterableEquality (a b : JSVal) : Option Bool :=
  if !typeofObject a || !typeofObject b || isArray a || isArray b ||
      !hasIterator a || !hasIterator b then
    none
  else
    match a, b with
    | .iter ca as, .iter cb bs =>
        if ca != cb then some false else some (lockstep as bs)
    | _, _ => none
termination_by (sizeOf a + sizeOf b, 0)
decreasing_by
  simp_wf
  apply Prod.Lex.left
  omega

/-- The element-by-element walk of `iterableEquality`: `a`'s elements are
paired with `b`'s iterator output; if either sequence ends early or a pair
is unequal under the extended host equality, the result is `false`; it is
`true` only when both end simultaneously with all pairs equal. -/
def lockstep : List JSVal → List JSVal → Bool
  | [], [] => true
  | [], _ :: _ => false
  | _ :: _, [] => false
  | a :: as, b :: bs => equalsIter a b && lockstep as bs
termination_by as bs => (sizeOf as + sizeOf bs, 0)
decreasing_by
  all_goals simp_wf
  all_goals apply Prod.Lex.left
  all_goals omega

/-- `jasmine.matchersUtil.equals(x, y, [iterableEquality])`.
Modelled from the spec: the host (vendored jasmine engine, not under src/)
deep equality, which consults the custom tester first and falls back to
structural deep comparison, threading the custom tester through nested
arrays and objects. -/
def equalsIter (a b : JSVal) : Bool :=
  match iterableEquality a b with
  | some r => r
  | none =>
    match a, b with
    | .undef, .undef => true
    | .null, .null => true
    | .bool x, .bool y => x == y
    | .num x, .num y => x == y
    | .str x, .str y => x == y
    | .arr xs, .arr ys => eqElems xs ys
    | .obj xs, .obj ys => eqFields xs ys
    | .iter cx xs, .iter cy ys => cx == cy && eqElems xs ys
    | _, _ => false
termination_by (sizeOf a + sizeOf b, 1)
decreasing_by
  all_goals simp_wf
  all_goals first
    | (apply Prod.Lex.right; omega)
    | (apply Prod.Lex.left; omega)

/-- Element-wise comparison of two arrays under the extended host
equality. -/
def eqElems : List JSVal → List JSVal → Bool
  | [], [] => true
  | x :: xs, y :: ys => equalsIter x y && eqElems xs ys
  | _, _ => false
termination_by xs ys => (sizeOf xs + sizeOf ys, 0)
decreasing_by
  all_goals simp_wf
  all_goals apply Prod.Lex.left
  all_goals omega

/-- Field-wise comparison of two plain objects under the extended host
equality. -/
def eqFields : List (String × JSVal) → List (String × JSVal) → Bool
  | [], [] => true
  | (k, v) :: xs, (l, w) :: ys => k == l && equalsIter v w && eqFields xs ys
  | _, _ => false
termination_by xs ys => (sizeOf xs + sizeOf ys, 0)
decreasing_by
  all_goals simp_wf
  all_goals apply Prod.Lex.left
  all_goals omega

end

/-! ## Instrumented pretty-printing

A `Traced` value carries the number of `prettyPrint` invocations performed
to produce it, so that the lazy/eager rendering policy of the matchers can
be stated: the matchers must not invoke the formatter during `compare`. -/

/-- A value together with the number of `reporter.getFormatter().prettyPrint`
invocations performed to produce it. -/
structure Traced (α : Type) where
  val : α
  cost : Nat
deriving Repr

/-- One invocation of the reporter formatter's `prettyPrint`. -/
def tPP (pp : JSVal → String) (v : JSVal) : Traced String :=
  ⟨pp v, 1⟩

/-- Map over a traced value (no additional formatter invocations). -/
def tmap {α β : Type} (f : α → β) (x : Traced α) : Traced β :=
  ⟨f x.val, x.cost⟩

/-- Combine two traced values (invocation counts add). -/
def tmap2 {α β γ : Type} (f : α → β → γ) (x : Traced α) (y : Traced β) :
    Traced γ :=
  ⟨f x.val y.val, x.cost + y.cost⟩

/-- Sequence a list of traced values (invocation counts add). -/
def tList {α : Type} : List (Traced α) → Traced (List α)
  | [] => ⟨[], 0⟩
  | x :: xs => tmap2 (· :: ·) x (tList xs)

/-! ## Diagnostic renderer and call matchers -/

/-- Source: `const CALL_PRINT_LIMIT = 3`. -/
def CALL_PRINT_LIMIT : Nat := 3

/-- Source: `const LAST_CALL_PRINT_LIMIT = 1`. -/
def LAST_CALL_PRINT_LIMIT : Nat := 1

/-- JavaScript `l.slice(-n)` for a natural `n`: the last `n` elements
(`slice(-0)` is `slice(0)`, the whole array). -/
def jsSliceLast {α : Type} (l : List α) (n : Nat) : List α :=
  if n == 0 then l else l.drop (l.length - n)

/-- Source `getActualCalls` (lines 43-54): a header pluralized on the total
call count, the last `limit` calls pretty-printed, reversed to
most-recent-first and joined by a comma and newline, and — when more than
`limit` calls exist — a trailing pluralized count of the omitted calls.
The invocation count records one `prettyPrint` per rendered call. -/
def getActualCalls (pp : JSVal → String) (calls : List (List JSVal))
    (limit : Nat) : Traced String :=
  let count : Int := (calls.length : Int) - (limit : Int)
  tmap (fun rendered =>
      "\nActual call" ++ (if calls.length == 1 then "" else "s") ++ ":\n" ++
      String.intercalate (",\n") rendered.reverse ++
      (if count > 0 then
        "\nand " ++ toString count ++ " other call" ++
          (if count == 1 then "" else "s") ++ "."
      else ""))
    (tList ((jsSliceLast calls limit).map (fun call => tPP pp (JSVal.arr call))))

/-- One recorded invocation of a jasmine spy, as returned by
`calls.all()`; the matchers project out its `args`. -/
structure SpyCall where
  args : List JSVal
deriving Repr

/-- A candidate matcher target: it may expose jasmine-spy style call
tracking (`test.calls` with `test.calls.all`) and/or jest-mock style
tracking (`test.mock.calls`); a target exposing neither is invalid input
to every call matcher. -/
structure Target where
  spyCalls : Option (List SpyCall)
  mockCalls : Option (List (List JSVal))
deriving Repr

/-- Source: `test.calls && test.calls.all !== undefined`. -/
def isSpyLike (test : Target) : Bool :=
  test.spyCalls.isSome

/-- Source: `test.mock !== undefined`. -/
def isMockLike (test : Target) : Bool :=
  test.mockCalls.isSome

/-- The calls expression shared by all three matchers:
`isSpy ? actual.calls.all().map(x => x.args) : actual.mock.calls`. -/
def extractCalls (actual : Target) : List (List JSVal) :=
  if isSpyLike actual then (actual.spyCalls.getD []).map SpyCall.args
  else actual.mockCalls.getD []

/-- `calls[calls.length - 1]`: the last recorded call as a JS value, or
`undefined` when the list is empty (JavaScript out-of-range indexing). -/
def jsLastElement (calls : List (List JSVal)) : JSVal :=
  match calls.getLast? with
  | some c => JSVal.arr c
  | none => JSVal.undef

/-- A matcher result's `message` property: either a plain precomputed
string, or a get-accessor evaluated only when the property is read. -/
inductive MessageSlot where
  | eager : String → MessageSlot
  | getter : (Unit → Traced String) → MessageSlot

/-- Whether the message property is a plain precomputed string. -/
def MessageSlot.isEager : MessageSlot → Bool
  | .eager _ => true
  | .getter _ => false

/-- Whether the message property is a lazily-evaluated get-accessor. -/
def MessageSlot.isGetter : MessageSlot → Bool
  | .eager _ => false
  | .getter _ => true

/-- The object returned by a matcher's `compare`. -/
structure MatchResult where
  pass : Bool
  message : MessageSlot

/-- The part of a `MatchResult` observable without reading a lazy message
accessor: the pass flag, and the message text when it is precomputed. -/
def MatchResult.shape (r : MatchResult) : Bool × Option String :=
  (r.pass, match r.message with
    | .eager s => some s
    | .getter _ => none)

/-- Source `toBeCalled` compare (lines 176-204): throws on a truthy extra
argument, throws on an untrackable target, otherwise passes iff the call
list is non-empty, with a plain (eagerly computed) string message. -/
def toBeCalledCompare (actual : Target) (expected : JSVal) :
    Except String MatchResult :=
  if truthy expected then
    Except.error
      ("toBeCalled() does not accept parameters, use toBeCalledWith instead.")
  else
    let isSpy := isSpyLike actual
    if !isSpy && !isMockLike actual then
      Except.error
        ("toBeCalled() should be used on a mock function or a jasmine spy.")
    else
      let calls := extractCalls actual
      let pass := calls.length != 0
      let message :=
        if pass then "Expected not to be called"
        else "Expected to be called at least once"
      Except.ok { pass := pass, message := MessageSlot.eager message }

/-- Source `lastCalledWith` compare (lines 207-247): throws on an
untrackable target; passes iff `util.equals(calls[calls.length - 1],
expected)`; both messages are get-accessors that pretty-print only when
read, the failing one rendering with `LAST_CALL_PRINT_LIMIT`. -/
def lastCalledWithCompare (equals : JSVal → JSVal → Bool)
    (pp : JSVal → String) (actual : Target) (expected : List JSVal) :
    Except String MatchResult :=
  let isSpy := isSpyLike actual
  if !isSpy && !isMockLike actual then
    Except.error
      ("lastCalledWith() should be used on a mock function or a jasmine spy.")
  else
    let calls := extractCalls actual
    let pass := equals (jsLastElement calls) (JSVal.arr expected)
    if !pass then
      Except.ok { pass := pass, message := MessageSlot.getter (fun _ =>
        tmap2 (fun pe ac =>
            "Wasn\x27t last called with the expected values.\n" ++
            "Expected call:\n" ++ pe ++ ac)
          (tPP pp (JSVal.arr expected))
          (getActualCalls pp calls LAST_CALL_PRINT_LIMIT)) }
    else
      Except.ok { pass := pass, message := MessageSlot.getter (fun _ =>
        tmap (fun pe => "Shouldn\x27t have been last called with\n" ++ pe)
          (tPP pp (JSVal.arr expected))) }

/-- Source `toBeCalledWith` compare (lines 249-288): throws on an
untrackable target; passes iff some call's argument list satisfies
`util.equals(call, expected)`; both messages are get-accessors, the
failing one rendering with `CALL_PRINT_LIMIT`. -/
def toBeCalledWithCompare (equals : JSVal → JSVal → Bool)
    (pp : JSVal → String) (actual : Target) (expected : List JSVal) :
    Except String MatchResult :=
  let isSpy := isSpyLike actual
  if !isMockLike actual && !isSpy then
    Except.error
      ("toBeCalledWith() should be used on a mock function or a jasmine spy.")
  else
    let calls := extractCalls actual
    let pass := calls.any (fun call => equals (JSVal.arr call) (JSVal.arr expected))
    if !pass then
      Except.ok { pass := pass, message := MessageSlot.getter (fun _ =>
        tmap2 (fun pe ac =>
            "Was not called with the expected values.\n" ++
            "Expected call:\n" ++ pe ++ ac)
          (tPP pp (JSVal.arr expected))
          (getActualCalls pp calls CALL_PRINT_LIMIT)) }
    else
      Except.ok { pass := pass, message := MessageSlot.getter (fun _ =>
        tmap (fun pe => "Shouldn\x27t have been called with\n" ++ pe)
          (tPP pp (JSVal.arr expected))) }

/-- Reading a matcher result's `message` property: a plain string costs no
formatter invocations; a get-accessor runs its body. -/
def readMessage : MessageSlot → Traced String
  | .eager s => ⟨s, 0⟩
  | .getter g => g ()

/-! ## Failure capture: the patched `buildExpectationResult`

Mutation and reference identity matter here, so values live in an explicit
heap: an expectation-result option is a primitive or a reference to a heap
object, and `jasmine.util.clone` allocates a copy at a fresh address. -/

/-- A value reaching the patched result builder: either some value with
`typeof` other than `'object'` (number, string, boolean, undefined,
function, ...), the `null` literal, or a reference to a heap object. -/
inductive HVal where
  | prim : String → HVal
  | null : HVal
  | ref : Nat → HVal
deriving Repr, DecidableEq

/-- A heap object: whether it is an `instanceof environment.global.Node`,
its `nodeType`, and its own properties (which may reference other
objects — copies are shallow). -/
structure HObj where
  isNode : Bool
  nodeType : Int
  fields : List (String × HVal)
deriving Repr, DecidableEq

/-- The object heap: addresses are list indices, allocation appends. -/
structure Heap where
  objs : List HObj
deriving Repr, DecidableEq

/-- Dereference an address. -/
def Heap.lookup (h : Heap) (a : Nat) : Option HObj :=
  h.objs[a]?

/-- Overwrite the properties of the object at address `a` (what code under
test does to a recorded value after the failure). -/
def Heap.mutateFields (h : Heap) (a : Nat) (fs : List (String × HVal)) :
    Heap :=
  match h.objs[a]? with
  | some o => ⟨h.objs.set a { o with fields := fs }⟩
  | none => h

/-- `jasmine.util.clone`. Modelled from the spec: the vendored engine
(not under src/) produces a shallow structural copy of the object's own
properties; in the heap model the copy is the same record, and
`shallowCopy` places it at a fresh address. -/
def jasmineUtilClone (o : HObj) : HObj :=
  o

/-- Source `shallowCopy` (lines 81-93), against heap `h`, with `hasNode`
recording whether `environment.global.Node` exists (is truthy): a value
whose `typeof` is not `'object'`, the `null` value, and a reference to an
`instanceof Node` object with positive `nodeType` are returned unchanged
(same reference, heap untouched); a reference to any other object is
replaced by a reference to a clone at a fresh address. A dangling
reference (never produced by the program) is returned unchanged. -/
def shallowCopy (hasNode : Bool) (h : Heap) (v : HVal) : Heap × HVal :=
  match v with
  | .prim s => (h, .prim s)
  | .null => (h, .null)
  | .ref a =>
    match h.lookup a with
    | none => (h, .ref a)
    | some o =>
      if hasNode && o.isNode && decide (0 < o.nodeType) then (h, .ref a)
      else (⟨h.objs ++ [jasmineUtilClone o]⟩, .ref h.objs.length)

/-- The options record passed to `jasmine.buildExpectationResult`;
`matcherName` stands for the fields the patch never touches. -/
structure ExpectOptions where
  passed : Bool
  matcherName : String
  expected : HVal
  actual : HVal
deriving Repr, DecidableEq

/-- The patched `jasmine.buildExpectationResult` (source lines 79-99): when
the options represent a failure, `expected` and `actual` are replaced by
`shallowCopy` before the original builder runs; otherwise the original
builder receives the options untouched. The original builder is abstract
(`orig`), applied to the heap and the options exactly as the source's
`apply` call passes them. -/
def buildExpectationResult {α : Type} (orig : Heap → ExpectOptions → α)
    (hasNode : Bool) (h : Heap) (options : ExpectOptions) : α :=
  if !options.passed then
    let he := shallowCopy hasNode h options.expected
    let ha := shallowCopy hasNode he.1 options.actual
    orig ha.1 { options with expected := he.2, actual := ha.2 }
  else
    orig h options

/-! ## End-of-run result aggregation -/

/-- The status object returned by `snapshot.save(update)`. -/
structure SaveStatus where
  deleted : Bool
deriving Repr, DecidableEq

/-- The snapshot collaborator's interface over an abstract state `σ`
(owned by jest-snapshot, outside this module): an unchecked-keys
predicate, removal of unchecked entries, and persistence returning a
deletion status. -/
structure SnapshotOps (σ : Type) where
  hasUncheckedKeys : σ → Bool
  removeUncheckedKeys : σ → σ
  save : σ → Bool → σ × SaveStatus

/-- The counters the snapshot state exposes at the end of a run. -/
structure SnapshotCounters where
  added : Nat
  matched : Nat
  unmatched : Nat
  updated : Nat
deriving Repr, DecidableEq

/-- The `snapshot` sub-record of the final result. -/
structure SnapshotRecord where
  fileDeleted : Bool
  added : Nat
  matched : Nat
  unmatched : Nat
  updated : Nat
deriving Repr, DecidableEq

/-- The aggregated run result: the reporter's collected tree plus the
snapshot bookkeeping fields the aggregation step adds. -/
structure RunResult (ρ : Type) where
  tree : ρ
  hasUncheckedKeys : Bool
  snapshot : SnapshotRecord

/-- An operation performed on the snapshot state, for tracing the order of
effects in the aggregation step. -/
inductive SnapOp where
  | readUnchecked
  | removeUnchecked
  | save
deriving Repr, DecidableEq

/-- Source lines 309-325, the `.then` continuation of `jasmine2`: read
`hasUncheckedKeys` before any mutation, remove unchecked keys exactly when
`updateSnapshot` is configured, save once obtaining the deletion status,
and populate the result record from the status and the counters. The
returned trace logs each snapshot-state operation in order. -/
def jasmine2Results {σ ρ : Type} (ops : SnapshotOps σ) (updateSnapshot : Bool)
    (snapshotState : σ) (counters : SnapshotCounters) (results : ρ) :
    RunResult ρ × σ × List SnapOp :=
  let hasUnchecked := ops.hasUncheckedKeys snapshotState
  let log0 := [SnapOp.readUnchecked]
  let afterRemove :=
    if updateSnapshot then
      (ops.removeUncheckedKeys snapshotState, log0 ++ [SnapOp.removeUnchecked])
    else (snapshotState, log0)
  let saved := ops.save afterRemove.1 updateSnapshot
  let status := saved.2
  (⟨results, !status.deleted && hasUnchecked,
    ⟨status.deleted, counters.added, counters.matched, counters.unmatched,
     counters.updated⟩⟩,
   saved.1, afterRemove.2 ++ [SnapOp.save])

/-! ## Helper lemmas -/

theorem lockstep_eq (as bs : List JSVal) :
    lockstep as bs =
      (decide (as.length = bs.length) &&
        (as.zip bs).all (fun p => equalsIter p.1 p.2)) := by
  induction as generalizing bs with
  | nil => cases bs <;> simp [lockstep]
  | cons a as ih =>
    cases bs with
    | nil => simp [lockstep]
    | cons b bs =>
      cases h : equalsIter a b <;> simp [lockstep, ih, h]

/-- The spec's applicability condition for the sequence-equality
extension: both values are non-null, of object type, neither is an array,
and both expose the iteration protocol. -/
def seqEqApplicable (a b : JSVal) : Prop :=
  a ≠ JSVal.null ∧ b ≠ JSVal.null ∧
  typeofObject a = true ∧ typeofObject b = true ∧
  isArray a = false ∧ isArray b = false ∧
  hasIterator a = true ∧ hasIterator b = true

/-! ## Claims -/

/-- **C1.** `iterableEquality` is applicable (returns a decision rather
than the not-applicable sentinel `none`) exactly when both values are
non-null values of object type, neither is an array, and both expose the
iteration protocol; when applicable it decides `false` if the constructors
differ, and otherwise decides `true` exactly when both element sequences
have the same length and all lockstep-paired elements are equal under the
host equality extended with `iterableEquality` itself (`equalsIter`). -/
theorem iterableEquality_spec (a b : JSVal) :
    ((iterableEquality a b).isSome = true ↔ seqEqApplicable a b) ∧
    (∀ ca as cb bs, a = JSVal.iter ca as → b = JSVal.iter cb bs →
      iterableEquality a b =
        some ((ca == cb) && (decide (as.length = bs.length) &&
          (as.zip bs).all (fun p => equalsIter p.1 p.2)))) := by
  constructor
  · cases a <;> cases b <;>
      simp [iterableEquality, seqEqApplicable, typeofObject, isArray,
        hasIterator]
    split <;> simp
  · rintro ca as cb bs rfl rfl
    rcases eq_or_ne ca cb with h | h
    · subst h
      simp [iterableEquality, typeofObject, isArray, hasIterator,
        lockstep_eq]
    · simp [iterableEquality, typeofObject, isArray, hasIterator, h]

/-- Witness for C1: two same-constructor iterables with equal single
elements are decided by the stated formula, which evaluates to `true`. -/
theorem iterableEquality_spec_witness :
    iterableEquality (JSVal.iter ("Set") [JSVal.num 1])
        (JSVal.iter ("Set") [JSVal.num 1]) =
      some ((("Set" : String) == "Set") &&
        (decide (([JSVal.num 1] : List JSVal).length =
          ([JSVal.num 1] : List JSVal).length) &&
          (([JSVal.num 1] : List JSVal).zip [JSVal.num 1]).all
            (fun p => equalsIter p.1 p.2))) ∧
    iterableEquality (JSVal.iter ("Set") [JSVal.num 1])
        (JSVal.iter ("Set") [JSVal.num 1]) = some true := by
  have h := (iterableEquality_spec (JSVal.iter ("Set") [JSVal.num 1])
    (JSVal.iter ("Set") [JSVal.num 1])).2 "Set" [JSVal.num 1] "Set"
    [JSVal.num 1] rfl rfl
  refine ⟨h, ?_⟩
  rw [h]
  simp [equalsIter, iterableEquality, typeofObject, isArray, hasIterator]

/-- **C2.** The aggregation reads `hasUncheckedKeys` from the pre-mutation
state `s`, performs `removeUncheckedKeys` exactly when update-snapshot
mode is configured, performs a single `save` obtaining the deletion flag,
and the returned record satisfies
`hasUncheckedKeys = (not deleted) && (had unchecked keys before mutation)`
with the snapshot sub-record populated from the deletion flag and the
added/matched/unmatched/updated counters; the trace lists the snapshot
operations in exactly that order. -/
theorem jasmine2Results_spec {σ ρ : Type} (ops : SnapshotOps σ)
    (updateSnapshot : Bool) (s : σ) (counters : SnapshotCounters)
    (results : ρ) :
    jasmine2Results ops updateSnapshot s counters results =
      (⟨results,
        !(ops.save (if updateSnapshot then ops.removeUncheckedKeys s else s)
            updateSnapshot).2.deleted && ops.hasUncheckedKeys s,
        ⟨(ops.save (if updateSnapshot then ops.removeUncheckedKeys s else s)
            updateSnapshot).2.deleted,
         counters.added, counters.matched, counters.unmatched,
         counters.updated⟩⟩,
       (ops.save (if updateSnapshot then ops.removeUncheckedKeys s else s)
          updateSnapshot).1,
       if updateSnapshot then
         [SnapOp.readUnchecked, SnapOp.removeUnchecked, SnapOp.save]
       else [SnapOp.readUnchecked, SnapOp.save]) := by
  cases updateSnapshot <;> rfl

/-- **C3.** On a failing result the patched builder delegates to the
original builder with `expected` and `actual` replaced by `shallowCopy`
and every other field untouched; `shallowCopy` passes primitives, `null`,
and `Node` instances with positive `nodeType` through unchanged (same
reference, heap untouched), and replaces every other object reference by a
reference to a copy at a fresh address holding the fields as of failure
time — an address distinct from the original, so a later mutation of the
original object (final conjunct) leaves the recorded copy unchanged. -/
theorem buildExpectationResult_failure_copy (hasNode : Bool) (h : Heap)
    (options : ExpectOptions) (hfail : options.passed = false) :
    buildExpectationResult (fun g o => (g, o)) hasNode h options =
      (let he := shallowCopy hasNode h options.expected
       let ha := shallowCopy hasNode he.1 options.actual
       (ha.1, { options with expected := he.2, actual := ha.2 })) ∧
    (∀ (g : Heap) (s : String),
       shallowCopy hasNode g (HVal.prim s) = (g, HVal.prim s)) ∧
    (∀ g : Heap, shallowCopy hasNode g HVal.null = (g, HVal.null)) ∧
    (∀ (g : Heap) (a : Nat) (o : HObj), g.lookup a = some o →
       hasNode = true → o.isNode = true → 0 < o.nodeType →
       shallowCopy hasNode g (HVal.ref a) = (g, HVal.ref a)) ∧
    (∀ (g : Heap) (a : Nat) (o : HObj), g.lookup a = some o →
       (hasNode && o.isNode && decide (0 < o.nodeType)) = false →
       shallowCopy hasNode g (HVal.ref a) =
         (Heap.mk (g.objs ++ [o]), HVal.ref g.objs.length) ∧
       a ≠ g.objs.length ∧
       (Heap.mk (g.objs ++ [o])).lookup g.objs.length = some o) ∧
    (∀ (g : Heap) (a c : Nat) (fs : List (String × HVal)), a ≠ c →
       (g.mutateFields a fs).lookup c = g.lookup c) := by
  refine ⟨by simp [buildExpectationResult, hfail], fun g s => rfl,
    fun g => rfl, ?_, ?_, ?_⟩
  · intro g a o hl hn hi hp
    simp [shallowCopy, hl, hn, hi, hp]
  · intro g a o hl hc
    have hlt : a < g.objs.length := by
      have := List.getElem?_eq_some_iff.mp (show g.objs[a]? = some o from hl)
      exact this.1
    refine ⟨by simp [shallowCopy, hl, hc, jasmineUtilClone], by omega, ?_⟩
    show (g.objs ++ [o])[g.objs.length]? = some o
    exact List.getElem?_concat_length g.objs o
  · intro g a c fs hac
    unfold Heap.mutateFields
    cases hga : g.objs[a]? with
    | none => rfl
    | some o =>
      show (g.objs.set a _)[c]? = g.objs[c]?
      exact List.getElem?_set_ne hac

/-- A plain (non-Node) object used by the failure-capture witnesses. -/
def wObj : HObj := ⟨false, 0, [("x", HVal.prim ("1"))]⟩

/-- A one-object heap used by the failure-capture witnesses. -/
def wHeap : Heap := ⟨[wObj]⟩

/-- A failing options record whose `expected` references the plain object
and whose `actual` is `null`. -/
def wFailOpts : ExpectOptions := ⟨false, "toBe", HVal.ref 0, HVal.null⟩

/-- A passing options record with the same fields. -/
def wPassOpts : ExpectOptions := ⟨true, "toBe", HVal.ref 0, HVal.null⟩

/-- Witness for C3: on the concrete failing options the builder delegates
with `expected` redirected to the fresh copy at address 1, which still
reads the original fields after the original at address 0 is mutated. -/
theorem buildExpectationResult_failure_copy_witness :
    wFailOpts.passed = false ∧
    buildExpectationResult (fun g o => (g, o)) true wHeap wFailOpts =
      (Heap.mk [wObj, wObj], { wFailOpts with expected := HVal.ref 1 }) ∧
    (Heap.mk [wObj, wObj]).lookup 1 = some wObj ∧
    ((Heap.mk [wObj, wObj]).mutateFields 0 []).lookup 1 = some wObj := by
  obtain ⟨h1, h2, h3, h4, h5, h6⟩ :=
    buildExpectationResult_failure_copy true wHeap wFailOpts rfl
  refine ⟨rfl, by rw [h1]; rfl, (h5 wHeap 0 wObj rfl rfl).2.2, ?_⟩
  rw [h6 (Heap.mk [wObj, wObj]) 0 1 [] (by omega)]
  exact (h5 wHeap 0 wObj rfl rfl).2.2

/-- **C10.** On a passing result the patched builder forwards the heap and
the options to the original builder completely unmodified: no copy is
made and all fields keep their original references. -/
theorem buildExpectationResult_pass_frame {α : Type}
    (orig : Heap → ExpectOptions → α) (hasNode : Bool) (h : Heap)
    (options : ExpectOptions) (hpass : options.passed = true) :
    buildExpectationResult orig hasNode h options = orig h options := by
  simp [buildExpectationResult, hpass]

/-- Witness for C10 at concrete passing options. -/
theorem buildExpectationResult_pass_frame_witness :
    wPassOpts.passed = true ∧
    buildExpectationResult (fun g o => (g, o)) true wHeap wPassOpts =
      (wHeap, wPassOpts) :=
  ⟨rfl, buildExpectationResult_pass_frame (fun g o => (g, o)) true wHeap
    wPassOpts rfl⟩

/-! ## Renderer and matcher lemmas -/

/-- `t` occurs as a contiguous substring of `s`. -/
def strContains (s t : String) : Prop :=
  ∃ u v, s = u ++ t ++ v

theorem strContains_of_parts (s u t v : String) (h : s = u ++ (t ++ v)) :
    strContains s t :=
  ⟨u, v, by rw [String.append_assoc]; exact h⟩

theorem tList_val {α : Type} (xs : List (Traced α)) :
    (tList xs).val = xs.map Traced.val := by
  induction xs with
  | nil => rfl
  | cons x xs ih => simp [tList, tmap2, ih]

theorem tList_cost {α : Type} (xs : List (Traced α)) :
    (tList xs).cost = (xs.map Traced.cost).sum := by
  induction xs with
  | nil => rfl
  | cons x xs ih => simp [tList, tmap2, ih]

theorem jsSliceLast_length {α : Type} (l : List α) (n : Nat) (hn : 0 < n) :
    (jsSliceLast l n).length = min n l.length := by
  have hne : (n == 0) = false := by simp; omega
  simp [jsSliceLast, hne]
  omega

theorem jsSliceLast_reverse {α : Type} (l : List α) (n : Nat) (hn : 0 < n) :
    (jsSliceLast l n).reverse = l.reverse.take n := by
  have hne : (n == 0) = false := by simp; omega
  simp only [jsSliceLast, hne, Bool.false_eq_true, if_false]
  rw [List.reverse_drop]
  rcases Nat.le_total n l.length with h | h
  · congr 1
    omega
  · rw [show l.length - (l.length - n) = l.length by omega,
      List.take_of_length_le (by simp),
      List.take_of_length_le (by simp; omega)]

/-- The rendered text of `getActualCalls`, with the traced plumbing
unfolded. -/
theorem getActualCalls_val (pp : JSVal → String) (calls : List (List JSVal))
    (limit : Nat) :
    (getActualCalls pp calls limit).val =
      "\nActual call" ++ (if calls.length == 1 then "" else "s") ++ ":\n" ++
      String.intercalate (",\n")
        (((jsSliceLast calls limit).map (fun c => pp (JSVal.arr c))).reverse)
        ++
      (if ((calls.length : Int) - (limit : Int)) > 0 then
        "\nand " ++ toString ((calls.length : Int) - (limit : Int)) ++
          " other call" ++
          (if ((calls.length : Int) - (limit : Int)) == 1 then "" else "s")
          ++ "."
      else "") := by
  simp [getActualCalls, tmap, tList_val, List.map_map, Function.comp_def, tPP]

/-- `getActualCalls` invokes the formatter once per rendered call. -/
theorem getActualCalls_cost (pp : JSVal → String) (calls : List (List JSVal))
    (limit : Nat) :
    (getActualCalls pp calls limit).cost = (jsSliceLast calls limit).length := by
  simp [getActualCalls, tmap, tList_cost, List.map_map, Function.comp_def, tPP]

/-- A trackable target never trips either form of the untrackable guard. -/
theorem trackable_guard (t : Target)
    (ht : (isSpyLike t || isMockLike t) = true) :
    (!isSpyLike t && !isMockLike t) = false ∧
    (!isMockLike t && !isSpyLike t) = false := by
  cases h1 : isSpyLike t <;> cases h2 : isMockLike t <;> simp_all

/-- **C6.** For a positive limit, the diagnostic renderer produces the
header `"Actual call"` exactly when the total call count is 1 and
`"Actual calls"` otherwise, then the last `limit` calls pretty-printed in
most-recent-first order joined by a comma and newline, and appends the
pluralized count of the omitted older calls exactly when the total call
count exceeds `limit`; it invokes the formatter once per rendered call,
i.e. `min limit (number of calls)` times. -/
theorem getActualCalls_spec (pp : JSVal → String) (calls : List (List JSVal))
    (limit : Nat) (hl : 0 < limit) :
    (getActualCalls pp calls limit).val =
      "\nActual call" ++ (if calls.length = 1 then "" else "s") ++ ":\n" ++
      String.intercalate (",\n")
        ((calls.reverse.take limit).map (fun call => pp (JSVal.arr call))) ++
      (if limit < calls.length then
        "\nand " ++ toString ((calls.length : Int) - (limit : Int)) ++
          " other call" ++
          (if calls.length - limit = 1 then "" else "s") ++ "."
      else "") ∧
    (getActualCalls pp calls limit).cost = min limit calls.length := by
  have hrev : ((jsSliceLast calls limit).map
      (fun c => pp (JSVal.arr c))).reverse =
      (calls.reverse.take limit).map (fun call => pp (JSVal.arr call)) := by
    rw [← List.map_reverse, jsSliceLast_reverse _ _ hl]
  constructor
  · rw [getActualCalls_val, hrev,
      if_congr (beq_iff_eq (a := calls.length) (b := 1)) rfl rfl,
      if_congr (show (((calls.length : Int) - (limit : Int)) > 0) ↔
        limit < calls.length by omega)
        (by rw [if_congr (show ((((calls.length : Int) - (limit : Int)) == 1)
          = true) ↔ calls.length - limit = 1 by rw [beq_iff_eq]; omega)
          rfl rfl]) rfl]
  · rw [getActualCalls_cost, jsSliceLast_length _ _ hl]

/-- Calls list used by the renderer witness. -/
def wCalls : List (List JSVal) :=
  [[JSVal.num 1], [JSVal.num 2], [JSVal.num 3], [JSVal.num 4]]

/-- Witness for C6 at four recorded calls and limit 3. -/
theorem getActualCalls_spec_witness :
    (0 : Nat) < 3 ∧
    ((getActualCalls (fun _ => ("v")) wCalls 3).val =
      "\nActual call" ++ (if wCalls.length = 1 then "" else "s") ++ ":\n" ++
      String.intercalate (",\n")
        ((wCalls.reverse.take 3).map
          (fun call => (fun _ => ("v")) (JSVal.arr call))) ++
      (if 3 < wCalls.length then
        "\nand " ++ toString ((wCalls.length : Int) - ((3 : Nat) : Int)) ++
          " other call" ++ (if wCalls.length - 3 = 1 then "" else "s") ++ "."
      else "") ∧
    (getActualCalls (fun _ => ("v")) wCalls 3).cost = min 3 wCalls.length) :=
  ⟨by decide, getActualCalls_spec (fun _ => ("v")) wCalls 3 (by decide)⟩

/-- **C4.** For a trackable target, `toBeCalledWith` passes exactly when
at least one recorded call's argument list equals the expected argument
list under the host equality; on failure the (lazily read) message is
precisely the fixed sentence, the pretty-printed expected arguments and
the recent calls rendered with limit `CALL_PRINT_LIMIT = 3`, and so
contains each of those three pieces. -/
theorem toBeCalledWith_spec (equals : JSVal → JSVal → Bool)
    (pp : JSVal → String) (t : Target) (e : List JSVal)
    (ht : (isSpyLike t || isMockLike t) = true) :
    (toBeCalledWithCompare equals pp t e).map (fun r => r.pass) =
      Except.ok ((extractCalls t).any
        (fun call => equals (JSVal.arr call) (JSVal.arr e))) ∧
    ((extractCalls t).any (fun call => equals (JSVal.arr call) (JSVal.arr e))
        = false →
      (toBeCalledWithCompare equals pp t e).map
          (fun r => (readMessage r.message).val) =
        Except.ok
          ("Was not called with the expected values.\n" ++
            "Expected call:\n" ++ pp (JSVal.arr e) ++
            (getActualCalls pp (extractCalls t) CALL_PRINT_LIMIT).val) ∧
      strContains
        ("Was not called with the expected values.\n" ++ "Expected call:\n"
          ++ pp (JSVal.arr e) ++
          (getActualCalls pp (extractCalls t) CALL_PRINT_LIMIT).val)
        ("Was not called with the expected values.") ∧
      strContains
        ("Was not called with the expected values.\n" ++ "Expected call:\n"
          ++ pp (JSVal.arr e) ++
          (getActualCalls pp (extractCalls t) CALL_PRINT_LIMIT).val)
        (pp (JSVal.arr e)) ∧
      strContains
        ("Was not called with the expected values.\n" ++ "Expected call:\n"
          ++ pp (JSVal.arr e) ++
          (getActualCalls pp (extractCalls t) CALL_PRINT_LIMIT).val)
        ((getActualCalls pp (extractCalls t) CALL_PRINT_LIMIT).val)) := by
  have hg := (trackable_guard t ht).2
  constructor
  · cases hp : (extractCalls t).any
        (fun call => equals (JSVal.arr call) (JSVal.arr e)) <;>
      simp [toBeCalledWithCompare, hg, hp, Except.map]
  · intro hp
    refine ⟨?_, ?_, ?_, ?_⟩
    · simp [toBeCalledWithCompare, hg, hp, Except.map, readMessage, tmap2,
        tPP]
    · apply strContains_of_parts _ "" _
        ("\n" ++ ("Expected call:\n" ++ (pp (JSVal.arr e) ++
          (getActualCalls pp (extractCalls t) CALL_PRINT_LIMIT).val)))
      simp only [String.append_assoc, String.empty_append]
      rw [show ("Was not called with the expected values.\n" : String) =
          "Was not called with the expected values." ++ "\n" from rfl,
        String.append_assoc]
    · apply strContains_of_parts _
        ("Was not called with the expected values.\n" ++ "Expected call:\n")
        _ ((getActualCalls pp (extractCalls t) CALL_PRINT_LIMIT).val)
      simp only [String.append_assoc]
    · apply strContains_of_parts _
        ("Was not called with the expected values.\n" ++ "Expected call:\n"
          ++ pp (JSVal.arr e)) _ ""
      simp only [String.append_assoc, String.append_empty]

/-- Spy target with recorded calls `[[1,2],[3,4]]`. -/
def wSpy2 : Target :=
  ⟨some [⟨[JSVal.num 1, JSVal.num 2]⟩, ⟨[JSVal.num 3, JSVal.num 4]⟩], none⟩

/-- Witness for C4: a spy whose calls are `[[1,2],[3,4]]`, compared under
an equality that matches nothing, fails with the stated message. -/
theorem toBeCalledWith_spec_witness :
    (isSpyLike wSpy2 || isMockLike wSpy2) = true ∧
    (extractCalls wSpy2).any
      (fun call => (fun _ _ => false : JSVal → JSVal → Bool)
        (JSVal.arr call) (JSVal.arr [JSVal.num 5])) = false ∧
    (toBeCalledWithCompare (fun _ _ => false) (fun _ => ("v")) wSpy2
        [JSVal.num 5]).map (fun r => r.pass) = Except.ok false ∧
    (toBeCalledWithCompare (fun _ _ => false) (fun _ => ("v")) wSpy2
        [JSVal.num 5]).map (fun r => (readMessage r.message).val) =
      Except.ok
        ("Was not called with the expected values.\n" ++ "Expected call:\n"
          ++ "v" ++ (getActualCalls (fun _ => ("v")) (extractCalls wSpy2)
            CALL_PRINT_LIMIT).val) := by
  have h := toBeCalledWith_spec (fun _ _ => false) (fun _ => ("v")) wSpy2
    [JSVal.num 5] rfl
  refine ⟨rfl, rfl, ?_, ?_⟩
  · rw [h.1]
    rfl
  · exact (h.2 rfl).1

/-- **C5.** For a trackable target with a non-empty call list,
`lastCalledWith` passes exactly when the last recorded call's argument
list equals the expected argument list under the host equality; its
failure diagnostic is the fixed sentence, the pretty-printed expected
arguments and the recent calls rendered with `LAST_CALL_PRINT_LIMIT = 1`,
and reading it invokes the formatter exactly twice — once for the
expected arguments and once for the single rendered call, never more. -/
theorem lastCalledWith_spec (equals : JSVal → JSVal → Bool)
    (pp : JSVal → String) (t : Target) (e : List JSVal)
    (lastCall : List JSVal)
    (ht : (isSpyLike t || isMockLike t) = true)
    (hlast : (extractCalls t).getLast? = some lastCall) :
    (lastCalledWithCompare equals pp t e).map (fun r => r.pass) =
      Except.ok (equals (JSVal.arr lastCall) (JSVal.arr e)) ∧
    (equals (JSVal.arr lastCall) (JSVal.arr e) = false →
      (lastCalledWithCompare equals pp t e).map
          (fun r => (readMessage r.message).val) =
        Except.ok
          ("Wasn\x27t last called with the expected values.\n" ++
            "Expected call:\n" ++ pp (JSVal.arr e) ++
            (getActualCalls pp (extractCalls t) LAST_CALL_PRINT_LIMIT).val)
        ∧
      (lastCalledWithCompare equals pp t e).map
          (fun r => (readMessage r.message).cost) = Except.ok 2) := by
  have hg := (trackable_guard t ht).1
  have hlastv : jsLastElement (extractCalls t) = JSVal.arr lastCall := by
    simp [jsLastElement, hlast]
  have hne : extractCalls t ≠ [] := by
    intro h0
    rw [h0] at hlast
    cases hlast
  have hcost :
      (getActualCalls pp (extractCalls t) LAST_CALL_PRINT_LIMIT).cost = 1 := by
    rw [getActualCalls_cost, jsSliceLast_length _ _
      (by norm_num [LAST_CALL_PRINT_LIMIT])]
    have := List.length_pos.mpr hne
    simp [LAST_CALL_PRINT_LIMIT]
    omega
  constructor
  · cases hp : equals (JSVal.arr lastCall) (JSVal.arr e) <;>
      simp [lastCalledWithCompare, hg, hlastv, hp, Except.map]
  · intro hp
    constructor
    · simp [lastCalledWithCompare, hg, hlastv, hp, Except.map, readMessage,
        tmap2, tPP]
    · simp [lastCalledWithCompare, hg, hlastv, hp, Except.map, readMessage,
        tmap2, tPP, hcost]

/-- Spy target with recorded calls `[[1],[2],[3]]`. -/
def wSpy3 : Target :=
  ⟨some [⟨[JSVal.num 1]⟩, ⟨[JSVal.num 2]⟩, ⟨[JSVal.num 3]⟩], none⟩

/-- Witness for C5: a spy whose calls are `[[1],[2],[3]]`, compared under
an equality that matches nothing, fails and its diagnostic costs exactly
two formatter invocations. -/
theorem lastCalledWith_spec_witness :
    (isSpyLike wSpy3 || isMockLike wSpy3) = true ∧
    (extractCalls wSpy3).getLast? = some [JSVal.num 3] ∧
    (fun _ _ => false : JSVal → JSVal → Bool)
      (JSVal.arr [JSVal.num 3]) (JSVal.arr [JSVal.num 2]) = false ∧
    (lastCalledWithCompare (fun _ _ => false) (fun _ => ("v")) wSpy3
        [JSVal.num 2]).map (fun r => r.pass) = Except.ok false ∧
    (lastCalledWithCompare (fun _ _ => false) (fun _ => ("v")) wSpy3
        [JSVal.num 2]).map (fun r => (readMessage r.message).cost) =
      Except.ok 2 := by
  have h := lastCalledWith_spec (fun _ _ => false) (fun _ => ("v")) wSpy3
    [JSVal.num 2] [JSVal.num 3] rfl rfl
  refine ⟨rfl, rfl, rfl, ?_, ?_⟩
  · rw [h.1]
  · exact (h.2 rfl).2

/-- **C7 counterexample.** The claim says the matcher throws on *every*
supplied extra argument, yet the source tests the extra argument only for
truthiness: the supplied falsy extra argument `false` does not throw —
the matcher proceeds to evaluate the call count and returns an ordinary
failing outcome. -/
theorem toBeCalled_falsy_extra_no_throw :
    toBeCalledCompare ⟨some [], none⟩ (JSVal.bool false) =
      Except.ok ⟨false,
        MessageSlot.eager ("Expected to be called at least once")⟩ := rfl

/-- **C7 (amended).** `toBeCalled` throws the usage error exactly when the
extra argument is truthy — before any trackability or call-count
evaluation; with a falsy (in particular absent, `undefined`) extra
argument and a trackable target it passes exactly when the recorded call
sequence is non-empty, with message `"Expected not to be called"` on pass
and `"Expected to be called at least once"` on fail. -/
theorem toBeCalled_spec (t : Target) (e : JSVal) :
    (truthy e = true →
      toBeCalledCompare t e = Except.error
        ("toBeCalled() does not accept parameters, use toBeCalledWith instead.")) ∧
    (truthy e = false → (isSpyLike t || isMockLike t) = true →
      toBeCalledCompare t e = Except.ok
        ⟨(extractCalls t).length != 0,
         MessageSlot.eager (if (extractCalls t).length != 0 then
           "Expected not to be called"
         else "Expected to be called at least once")⟩) := by
  constructor
  · intro he
    simp [toBeCalledCompare, he]
  · intro he ht
    have hg := (trackable_guard t ht).1
    simp [toBeCalledCompare, he, hg]

/-- Witness for C7 (amended): a truthy extra argument (`1`) throws, while
the absent (`undefined`) extra argument on a zero-call spy evaluates the
call count normally. -/
theorem toBeCalled_spec_witness :
    truthy (JSVal.num 1) = true ∧
    toBeCalledCompare ⟨some [], none⟩ (JSVal.num 1) =
      Except.error
        ("toBeCalled() does not accept parameters, use toBeCalledWith instead.") ∧
    truthy JSVal.undef = false ∧
    (isSpyLike (⟨some [], none⟩ : Target) ||
      isMockLike (⟨some [], none⟩ : Target)) = true ∧
    toBeCalledCompare ⟨some [], none⟩ JSVal.undef =
      Except.ok
        ⟨(extractCalls (⟨some [], none⟩ : Target)).length != 0,
         MessageSlot.eager
           (if (extractCalls (⟨some [], none⟩ : Target)).length != 0 then
             "Expected not to be called"
           else "Expected to be called at least once")⟩ :=
  ⟨rfl, (toBeCalled_spec ⟨some [], none⟩ (JSVal.num 1)).1 rfl, rfl, rfl,
    (toBeCalled_spec ⟨some [], none⟩ JSVal.undef).2 rfl rfl⟩

/-- **C8 counterexample.** A `toBeCalled` compare outcome whose `message`
is not a lazily-evaluated accessor: it is a precomputed plain string. -/
theorem toBeCalled_message_not_lazy :
    (toBeCalledCompare ⟨some [], none⟩ JSVal.undef).map
      (fun r => r.message.isGetter) = Except.ok false := rfl

/-- **C8 (amended).** `lastCalledWith` and `toBeCalledWith` expose their
messages as lazily-evaluated accessors whose reading invokes the
pretty-printer at least once, and their compare outcome — pass flag and
message shape — is independent of the pretty-printer, which is consulted
only when the accessor is read; `toBeCalled`, however, returns a
precomputed constant-string message (one of the two fixed sentences,
never touching the pretty-printer, so the formatter is still never
invoked during any of the three compares). -/
theorem matcherMessageLaziness (equals : JSVal → JSVal → Bool)
    (pp pq : JSVal → String) (t : Target) (e : List JSVal) (x : JSVal) :
    (∀ r, toBeCalledCompare t x = Except.ok r →
      r.message = MessageSlot.eager ("Expected not to be called") ∨
      r.message = MessageSlot.eager ("Expected to be called at least once"))
    ∧
    (∀ r, lastCalledWithCompare equals pp t e = Except.ok r →
      r.message.isGetter = true ∧ 1 ≤ (readMessage r.message).cost) ∧
    (∀ r, toBeCalledWithCompare equals pp t e = Except.ok r →
      r.message.isGetter = true ∧ 1 ≤ (readMessage r.message).cost) ∧
    (lastCalledWithCompare equals pp t e).map MatchResult.shape =
      (lastCalledWithCompare equals pq t e).map MatchResult.shape ∧
    (toBeCalledWithCompare equals pp t e).map MatchResult.shape =
      (toBeCalledWithCompare equals pq t e).map MatchResult.shape := by
  refine ⟨?_, ?_, ?_, ?_, ?_⟩
  · intro r hr
    simp only [toBeCalledCompare] at hr
    split at hr
    · cases hr
    · split at hr
      · cases hr
      · rw [Except.ok.injEq] at hr
        subst hr
        cases hc : (extractCalls t).length != 0 <;> simp [hc]
  · intro r hr
    simp only [lastCalledWithCompare] at hr
    split at hr
    · cases hr
    · split at hr <;>
      · rw [Except.ok.injEq] at hr
        subst hr
        refine ⟨rfl, ?_⟩
        simp [readMessage, tmap2, tmap, tPP]
  · intro r hr
    simp only [toBeCalledWithCompare] at hr
    split at hr
    · cases hr
    · split at hr <;>
      · rw [Except.ok.injEq] at hr
        subst hr
        refine ⟨rfl, ?_⟩
        simp [readMessage, tmap2, tmap, tPP]
  · simp only [lastCalledWithCompare]
    split_ifs <;> rfl
  · simp only [toBeCalledWithCompare]
    split_ifs <;> rfl

/-- Witness for C8 (amended) on a zero-call spy: `toBeCalled` yields the
eager failing sentence, the other two matchers yield get-accessor
messages, and the `lastCalledWith` outcome shape is unchanged under a
different formatter. -/
theorem matcherMessageLaziness_witness :
    toBeCalledCompare (⟨some [], none⟩ : Target) JSVal.undef =
      Except.ok ⟨false,
        MessageSlot.eager ("Expected to be called at least once")⟩ ∧
    (MessageSlot.eager ("Expected to be called at least once") =
        MessageSlot.eager ("Expected not to be called") ∨
      MessageSlot.eager ("Expected to be called at least once") =
        MessageSlot.eager ("Expected to be called at least once")) ∧
    (lastCalledWithCompare (fun _ _ => false) (fun _ => ("v"))
        ⟨some [], none⟩ []).map (fun r => r.message.isGetter) =
      Except.ok true ∧
    (toBeCalledWithCompare (fun _ _ => false) (fun _ => ("v"))
        ⟨some [], none⟩ []).map (fun r => r.message.isGetter) =
      Except.ok true ∧
    (lastCalledWithCompare (fun _ _ => false) (fun _ => ("v"))
        ⟨some [], none⟩ []).map MatchResult.shape =
      (lastCalledWithCompare (fun _ _ => false) (fun _ => ("w"))
        ⟨some [], none⟩ []).map MatchResult.shape :=
  ⟨rfl,
    (matcherMessageLaziness (fun _ _ => false) (fun _ => ("v"))
      (fun _ => ("w")) ⟨some [], none⟩ [] JSVal.undef).1 _ rfl,
    rfl, rfl,
    (matcherMessageLaziness (fun _ _ => false) (fun _ => ("v"))
      (fun _ => ("w")) ⟨some [], none⟩ [] JSVal.undef).2.2.2.1⟩

/-- **C9.** For a trackable target with zero recorded calls neither
matcher raises an error: `toBeCalledWith` returns a non-passing outcome,
and `lastCalledWith` evaluates the host equality against the `undefined`
value produced by indexing the empty call list (rather than failing on
the out-of-range index), which compares unequal to the array-valued
expected argument list, so the outcome is non-passing for every expected
argument list. -/
theorem zeroCalls_safe (pp : JSVal → String) (t : Target) (e : List JSVal)
    (ht : (isSpyLike t || isMockLike t) = true)
    (hz : extractCalls t = []) :
    (toBeCalledWithCompare equalsIter pp t e).map (fun r => r.pass) =
      Except.ok false ∧
    (lastCalledWithCompare equalsIter pp t e).map (fun r => r.pass) =
      Except.ok (equalsIter JSVal.undef (JSVal.arr e)) ∧
    (lastCalledWithCompare equalsIter pp t e).map (fun r => r.pass) =
      Except.ok false := by
  have hg := trackable_guard t ht
  have hu : equalsIter JSVal.undef (JSVal.arr e) = false := by
    simp [equalsIter, iterableEquality, typeofObject, isArray, hasIterator]
  refine ⟨?_, ?_, ?_⟩
  · simp [toBeCalledWithCompare, hg.2, hz, Except.map]
  · simp [lastCalledWithCompare, hg.1, hz, jsLastElement, Except.map, hu]
  · simp [lastCalledWithCompare, hg.1, hz, jsLastElement, Except.map, hu]

/-- Witness for C9: a mock-like target with an empty call list makes both
matchers return a non-passing, non-throwing outcome. -/
theorem zeroCalls_safe_witness :
    (isSpyLike (⟨none, some []⟩ : Target) ||
      isMockLike (⟨none, some []⟩ : Target)) = true ∧
    extractCalls (⟨none, some []⟩ : Target) = [] ∧
    (toBeCalledWithCompare equalsIter (fun _ => ("v")) ⟨none, some []⟩
        [JSVal.num 7]).map (fun r => r.pass) = Except.ok false ∧
    (lastCalledWithCompare equalsIter (fun _ => ("v")) ⟨none, some []⟩
        [JSVal.num 7]).map (fun r => r.pass) = Except.ok false := by
  have h := zeroCalls_safe (fun _ => ("v")) ⟨none, some []⟩ [JSVal.num 7]
    rfl rfl
  exact ⟨rfl, rfl, h.1, h.2.2⟩

end Jasmine2
